import Mathlib

/-!
# goreleaser: container publishing and the checksums pipe

A shallow embedding of `internal/pipe/docker/api_docker.go` (the docker imager
and manifester) and of the checksums pipe as `checksums_test.go` exercises it.

Go strings are Lean `String`s, Go slices are `List`s, the Go `error` interface
is `Option GoError` (`none` is `nil`), and a run-time panic is the outer `none`
of an `Option`.  External processes are a parameter: a `Toolchain` answers
every invocation, and each operation threads the list of invocations issued so
far.
-/

namespace Goreleaser

set_option maxRecDepth 100000

/-! ## Go errors and `fmt.Errorf` -/

/-- A Go error value: one produced by an external collaborator, one built by
`fmt.Errorf` without `%w`, or one built by `fmt.Errorf` around a wrapped cause. -/
inductive GoError where
  | tool (msg : String)
  | plain (msg : String)
  | wrapped (msg : String) (cause : GoError)
  deriving DecidableEq, Repr

/-- The method `Error()` of the `error` interface. -/
def GoError.Error : GoError → String
  | .tool msg => msg
  | .plain msg => msg
  | .wrapped msg _ => msg

/-- The method `Unwrap()`: the cause of a `%w` error, `nil` otherwise. -/
def GoError.Unwrap : GoError → Option GoError
  | .wrapped _ cause => some cause
  | _ => none

/-- The Go `error` interface; `none` is `nil`. -/
abbrev error := Option GoError

/-- An operand of a formatting call: a string or an error. -/
inductive FmtArg where
  | str (s : String)
  | err (e : GoError)
  deriving DecidableEq, Repr

/-- What `%s`, `%v` and `%w` print for an operand. -/
def FmtArg.text : FmtArg → String
  | .str s => s
  | .err e => e.Error

/-- The text `fmt.Sprintf` produces, for the verbs `%s`, `%v` and `%w` (the
only ones the sources use): every verb consumes one operand; a verb without an
operand prints Go's `%!v(MISSING)` marker. -/
def fmt.expand : List Char → List FmtArg → List Char
  | [], _ => []
  | [c], _ => [c]
  | c :: v :: rest, args =>
    if c = '%' then
      match args with
      | a :: more => a.text.data ++ fmt.expand rest more
      | [] => '%' :: '!' :: v :: "(MISSING)".data ++ fmt.expand rest []
    else c :: fmt.expand (v :: rest) args

/-- The operand of the first `%w` verb, when it is an error. -/
def fmt.wrapOperand : List Char → List FmtArg → Option GoError
  | [], _ => none
  | [_], _ => none
  | c :: v :: rest, args =>
    if c = '%' then
      match args with
      | a :: more =>
        if v = 'w' then
          match a with
          | .err e => some e
          | .str _ => fmt.wrapOperand rest more
        else fmt.wrapOperand rest more
      | [] => none
    else fmt.wrapOperand (v :: rest) args

/-- Go's `fmt.Errorf`: the formatted message, wrapping the `%w` operand. -/
def fmt.Errorf (format : String) (args : List FmtArg) : GoError :=
  match fmt.wrapOperand format.data args with
  | some cause => .wrapped ⟨fmt.expand format.data args⟩ cause
  | none => .plain ⟨fmt.expand format.data args⟩

/-! ## External processes -/

/-- One external command: working directory, binary and argument vector. -/
structure Invocation where
  dir : String
  binary : String
  args : List String
  deriving DecidableEq, Repr

/-- What a finished process hands back: its combined output and its error. -/
structure Outcome where
  output : String
  err : error
  deriving DecidableEq, Repr

/-- The external toolchain together with the `*context.Context` it runs
under: the outcome of an invocation, which may depend on the invocations that
ran before it. -/
abbrev Toolchain := List Invocation → Invocation → Outcome

/-- Modelled from the spec: `runCommandWithOutput` (declared in docker.go,
which is not among the sources) runs one external process, blocks until it
exits and returns its combined output and its error; the invocation is appended
to the log. -/
def runCommandWithOutput (sys : Toolchain) (log : List Invocation)
    (dir binary : String) (args : List String) :
    (String × error) × List Invocation :=
  (((sys log ⟨dir, binary, args⟩).output, (sys log ⟨dir, binary, args⟩).err),
    log ++ [⟨dir, binary, args⟩])

/-- Modelled from the spec: `runCommand` (declared in docker.go, which is not
among the sources) runs one external process and returns only its error. -/
def runCommand (sys : Toolchain) (log : List Invocation)
    (dir binary : String) (args : List String) : error × List Invocation :=
  ((runCommandWithOutput sys log dir binary args).1.2,
    (runCommandWithOutput sys log dir binary args).2)

/-! ## The digest pattern -/

/-- A regular expression without alternation or repetition of variable
length: one character class per position. -/
abbrev Regexp := List (Char → Bool)

/-- The class `[a-z0-9]`. -/
def classLowerAlnum (c : Char) : Bool :=
  decide (('a' ≤ c ∧ c ≤ 'z') ∨ ('0' ≤ c ∧ c ≤ '9'))

/-- The pattern `regexp.MustCompile("sha256:[a-z0-9]{64}")`. -/
def dockerDigestPattern : Regexp :=
  "sha256:".data.map (fun lit c => c == lit) ++ List.replicate 64 classLowerAlnum

/-- Whether the pattern matches at the very start of the text. -/
def Regexp.matchHere : Regexp → List Char → Bool
  | [], _ => true
  | _ :: _, [] => false
  | p :: ps, c :: cs => p c && Regexp.matchHere ps cs

/-- The scan behind `FindString`: the text of the leftmost match, or the empty
text when there is none. -/
def Regexp.find (re : Regexp) : List Char → List Char
  | [] => []
  | c :: cs => if re.matchHere (c :: cs) then (c :: cs).take re.length else Regexp.find re cs

/-- Go's `(*Regexp).FindString`. -/
def Regexp.FindString (re : Regexp) (s : String) : String :=
  ⟨re.find s.data⟩

/-! ## `dockerManifester` -/

/-- The Go type `dockerManifester struct{}`. -/
structure dockerManifester where
  deriving DecidableEq, Repr

/-- `dockerManifester.Create` (api_docker.go:21-32). -/
def dockerManifester.Create (_m : dockerManifester) (sys : Toolchain) (log : List Invocation)
    (manifest : String) (images flags : List String) : error × List Invocation :=
  let log1 := (runCommand sys log "." "docker" ["manifest", "rm", manifest]).2
  let args := ["manifest", "create", manifest]
  let args := args ++ images
  let args := args ++ flags
  match runCommand sys log1 "." "docker" args with
  | (some err, log2) =>
    (some (fmt.Errorf "failed to create %s: %w" [.str manifest, .err err]), log2)
  | (none, log2) => (none, log2)

/-- `dockerManifester.Push` (api_docker.go:34-41). -/
def dockerManifester.Push (_m : dockerManifester) (sys : Toolchain) (log : List Invocation)
    (manifest : String) (flags : List String) : error × List Invocation :=
  let args := ["manifest", "push", manifest]
  let args := args ++ flags
  match runCommand sys log "." "docker" args with
  | (some err, log1) =>
    (some (fmt.Errorf "failed to push %s: %w" [.str manifest, .err err]), log1)
  | (none, log1) => (none, log1)

/-! ## `dockerImager` -/

/-- The Go type `dockerImager struct { buildx bool }`. -/
structure dockerImager where
  buildx : Bool
  deriving DecidableEq, Repr

/-- `dockerImager.Push` (api_docker.go:49-62).  The parameter `flags` is
accepted and, as in the source, never read. -/
def dockerImager.Push (_i : dockerImager) (sys : Toolchain) (log : List Invocation)
    (image : String) (_flags : List String) : (String × error) × List Invocation :=
  match runCommandWithOutput sys log "." "docker" ["push", image] with
  | ((_, some err), log1) =>
    (("", some (fmt.Errorf "failed to push %s: %w" [.str image, .err err])), log1)
  | ((out, none), log1) =>
    let digest := dockerDigestPattern.FindString out
    if digest = "" then
      (("", some (fmt.Errorf "failed to find docker digest in docker push output: %v"
        [.str out])), log1)
    else ((digest, none), log1)

/-- `dockerImager.buildCommand` (api_docker.go:71-81). -/
def dockerImager.buildCommand (i : dockerImager) (images flags : List String) : List String :=
  let base := ["build", "."]
  let base := if i.buildx then ["buildx", "--builder", "default", "build", ".", "--load"] else base
  let base := images.foldl (fun base image => base ++ ["-t", image]) base
  let base := base ++ flags
  base

/-- `dockerImager.Build` (api_docker.go:64-69).  The outer `none` is the index
panic of `images[0]`. -/
def dockerImager.Build (i : dockerImager) (sys : Toolchain) (log : List Invocation)
    (root : String) (images flags : List String) : Option error × List Invocation :=
  match runCommand sys log root "docker" (i.buildCommand images flags) with
  | (some err, log1) =>
    match images[0]? with
    | some primary =>
      (some (some (fmt.Errorf "failed to build %s: %w" [.str primary, .err err])), log1)
    | none => (none, log1)
  | (none, log1) => (some none, log1)

/-! ## Specification vocabulary for the digest scan -/

/-- The class of lowercase hexadecimal digits (0-9, a-f). -/
def classLowerHex (c : Char) : Bool :=
  decide (('0' ≤ c ∧ c ≤ '9') ∨ ('a' ≤ c ∧ c ≤ 'f'))

/-- A digest token over a character class: `sha256:` followed by exactly 64
characters of the class. -/
def isDigestToken (cls : Char → Bool) (t : List Char) : Bool :=
  t.take 7 == "sha256:".data && (t.drop 7).length == 64 && (t.drop 7).all cls

/-- The text `d` is the first (leftmost) substring of `s` that is a digest
token over the class: it occurs in `s`, and no occurrence of a token starts
before it. -/
def LeftmostToken (cls : Char → Bool) (s d : List Char) : Prop :=
  ∃ pre post, s = pre ++ d ++ post ∧ isDigestToken cls d = true ∧
    ∀ pre2 tok post2, s = pre2 ++ tok ++ post2 → isDigestToken cls tok = true →
      pre.length ≤ pre2.length

/-- The text contains a digest token over the class somewhere. -/
def HasToken (cls : Char → Bool) (s : List Char) : Prop :=
  ∃ pre tok post, s = pre ++ tok ++ post ∧ isDigestToken cls tok = true

/-- The invocation `docker push <image>` issued from the directory `.`. -/
def pushInvocation (image : String) : Invocation := ⟨".", "docker", ["push", image]⟩

/-- A toolchain that answers every invocation with the same output and error. -/
def replyWith (output : String) (err : error) : Toolchain := fun _ _ => ⟨output, err⟩

/-- A token the pattern accepts although it is no hexadecimal digest. -/
def zToken : String := "sha256:" ++ ⟨List.replicate 64 'z'⟩

/-- A well-formed digest token. -/
def aToken : String := "sha256:" ++ ⟨List.replicate 64 'a'⟩

/-- Push output in which a non-hexadecimal token precedes the `Digest:` line. -/
def mixedOutput : String := "ref " ++ zToken ++ "\nDigest: " ++ aToken ++ "\n"

/-- The invocation `docker manifest rm <manifest>` issued from `.`. -/
def removeInvocation (manifest : String) : Invocation :=
  ⟨".", "docker", ["manifest", "rm", manifest]⟩

/-- The invocation `docker manifest create <manifest> <images> <flags>`. -/
def createInvocation (manifest : String) (images flags : List String) : Invocation :=
  ⟨".", "docker", ["manifest", "create", manifest] ++ images ++ flags⟩

/-- The `-t <image>` pairs, one per image, in the given order. -/
def tagPairs (images : List String) : List String :=
  (images.map (fun image => ["-t", image])).flatten

/-- A toolchain whose processes all fail with the same tool error. -/
def failingToolchain : Toolchain := replyWith "" (some (.tool "exit status 1"))

/-! ## The checksums pipe (`internal/pipe/checksums`)

Only the tests of the pipe are among the sources.  The data below is what
`checksums_test.go` builds; `Pipe.Run` itself is modelled from the spec (§4.2).
The assertions of `TestPipeWhenNoArtifacts` and of `TestPipe` are stated next
to it, and the two points on which they and the spec disagree are recorded as
theorems. -/

/-- The artifact types `artifact.Type` the spec (§3) and the tests name. -/
inductive ArtifactType where
  | UploadableArchive
  | UploadableBinary
  | UploadableFile
  | LinuxPackage
  | UploadableSourceArchive
  | Checksum
  | DockerImage
  deriving DecidableEq, Repr

/-- The record `artifact.Artifact` as the tests build it.  `Kind` is the Go
field `Type`; `ID` is the entry `Extra[artifact.ExtraID]` and `Checksum` the
entry `Extra[artifactChecksumExtra]` of the `Extra` map. -/
structure Artifact where
  Name : String
  Path : String
  Kind : ArtifactType
  ID : Option String
  Checksum : Option String
  deriving DecidableEq, Repr

/-- The record `config.Checksum`; `ExtraFiles` holds the glob of each
`config.ExtraFile`. -/
structure ChecksumConfig where
  NameTemplate : String
  Algorithm : String
  IDs : List String
  ExtraFiles : List String
  Disable : Bool
  deriving DecidableEq, Repr

/-- The fields of `config.Project` the pipe reads. -/
structure Project where
  Dist : String
  ProjectName : String
  Checksum : ChecksumConfig
  deriving DecidableEq, Repr

/-- The fields of `context.Context` the pipe reads and writes; `Artifacts` is
the registry in enumeration order, `Add` appending to it. -/
structure Context where
  Config : Project
  Env : List (String × String)
  CurrentTag : String
  Artifacts : List Artifact
  deriving DecidableEq, Repr

/-- The files on disk: path and content of every regular file, and the paths
that cannot be opened for writing. -/
structure FileSystem where
  files : List (String × String)
  denied : List String
  deriving DecidableEq, Repr

/-- The collaborators the spec leaves outside (§6): the template renderer, the
glob resolver (base name and absolute path of every match, sorted) and the hash
functions of the digest engine. -/
structure Collaborators where
  Render : Context → String → String ⊕ GoError
  Glob : FileSystem → String → List (String × String)
  Sum : String → String → String

/-- The zero value of `config.Project`. -/
def Project.zero : Project := ⟨"", "", ⟨"", "", [], [], false⟩⟩

/-- The call `context.New(config)`: no artifact, no environment. -/
def context.New (config : Project) : Context := ⟨config, [], "", []⟩

/-- The method `Artifacts.Add`. -/
def Context.Add (ctx : Context) (a : Artifact) : Context :=
  { ctx with Artifacts := ctx.Artifacts ++ [a] }

/-- The call `filepath.Join(dir, name)` for two clean segments. -/
def filepathJoin (dir name : String) : String :=
  if dir = "" then name else if name = "" then dir else dir ++ "/" ++ name

/-- The call `os.ReadFile`. -/
def FileSystem.read (fs : FileSystem) (path : String) : Option String :=
  fs.files.lookup path

/-- Writing a whole file: refused for a denied path, otherwise the file holds
exactly the new content. -/
def FileSystem.write (fs : FileSystem) (path content : String) : Option FileSystem :=
  if path ∈ fs.denied then none
  else some { fs with files := (path, content) :: fs.files.filter (fun f => f.1 != path) }

/-- Modelled from the spec: the algorithms of the digest engine (§4.1), which
is not among the sources. -/
def supportedAlgorithms : List String :=
  ["crc32", "md5", "sha1", "sha224", "sha256", "sha384", "sha512"]

/-- Modelled from the spec: the digest engine (§4.1), not among the sources:
the hexadecimal digest under a supported algorithm, a configuration error for
any other algorithm name. -/
def Digest (c : Collaborators) (algorithm content : String) : String ⊕ GoError :=
  if algorithm ∈ supportedAlgorithms then .inl (c.Sum algorithm content)
  else .inr (.plain ("invalid algorithm: " ++ algorithm))

/-- Modelled from the spec: step 2 of `Run` (§4.2), checksums.go not being
among the sources: with a non-empty allow-list the artifacts whose group id is
in the list, otherwise the binary, archive and linux-package artifacts; never
an artifact of type Checksum. -/
def eligible (ids : List String) (a : Artifact) : Bool :=
  a.Kind != .Checksum &&
    (if ids = [] then
      a.Kind == .UploadableBinary || a.Kind == .UploadableArchive || a.Kind == .LinuxPackage
    else
      match a.ID with
      | some id => decide (id ∈ ids)
      | none => false)

/-- One entry of the manifest: digest and display name. -/
structure SumLine where
  digest : String
  name : String
  deriving DecidableEq, Repr

/-- The line `<digest>  <name>\n` of an entry: exactly two spaces. -/
def SumLine.render (l : SumLine) : String := l.digest ++ "  " ++ l.name ++ "\n"

/-- Modelled from the spec: step 4 of `Run` (§4.2) for the inputs in order:
open each file, compute its digest, fail at the first file that cannot be read
or the first digest that cannot be computed. -/
def sumLines (c : Collaborators) (fs : FileSystem) (algorithm : String) :
    List (String × String) → List SumLine ⊕ GoError
  | [] => .inl []
  | (name, path) :: rest =>
    match fs.read path with
    | none => .inr (.plain ("open " ++ path ++ ": no such file or directory"))
    | some content =>
      match Digest c algorithm content with
      | .inr e => .inr e
      | .inl digest =>
        match sumLines c fs algorithm rest with
        | .inr e => .inr e
        | .inl lines => .inl (⟨digest, name⟩ :: lines)

/-- Modelled from the spec: step 3 of `Run` (§4.2): the matches of every
extra-file pattern in declaration order; a pattern without a match fails. -/
def extraFiles (c : Collaborators) (fs : FileSystem) :
    List String → List (String × String) ⊕ GoError
  | [] => .inl []
  | pattern :: rest =>
    match c.Glob fs pattern with
    | [] => .inr (.plain ("globbing failed for pattern " ++ pattern))
    | found =>
      match extraFiles c fs rest with
      | .inr e => .inr e
      | .inl more => .inl (found ++ more)

/-- Modelled from the spec: step 6 of `Run` (§4.2): the digest of a build
artifact is stored on it as `<algorithm>:<hex>`. -/
def storeChecksum (c : Collaborators) (fs : FileSystem) (algorithm : String)
    (ids : List String) (a : Artifact) : Artifact :=
  if eligible ids a then
    match fs.read a.Path with
    | some content => { a with Checksum := some (algorithm ++ ":" ++ c.Sum algorithm content) }
    | none => a
  else a

/-- What `Run` leaves behind: its error, the context and the files. -/
structure RunResult where
  err : error
  ctx : Context
  fs : FileSystem

/-- Modelled from the spec: `Pipe.Run` of the checksums pipe (checksums.go is
not among the sources), following §4.2.  A disabled feature makes the run a
no-op.  Otherwise: (1) render the file name, failing with the error of the
renderer; (2) select the eligible artifacts; (3) resolve the extra files,
failing on a pattern without a match; (4) compute one entry per input, the
artifacts in the order of enumeration followed by the extra files, failing at
the first file that cannot be opened; (5) write the buffer under `Dist`,
failing when the file cannot be written; (6) store the digests on the build
artifacts; (7) register one artifact of type Checksum for the written file.
With no input at all the buffer is empty and steps 5 to 7 still take place
(§4.2, edge cases).  The refresh capability of the registered artifact is not
modelled. -/
def Run (c : Collaborators) (ctx : Context) (fs : FileSystem) : RunResult :=
  let cfg := ctx.Config.Checksum
  if cfg.Disable then ⟨none, ctx, fs⟩
  else
    match c.Render ctx cfg.NameTemplate with
    | .inr e => ⟨some e, ctx, fs⟩
    | .inl filename =>
      let filepath := filepathJoin ctx.Config.Dist filename
      let artifactList := ctx.Artifacts.filter (eligible cfg.IDs)
      match extraFiles c fs cfg.ExtraFiles with
      | .inr e => ⟨some e, ctx, fs⟩
      | .inl extra =>
        let inputs := artifactList.map (fun a => (a.Name, a.Path)) ++ extra
        match sumLines c fs cfg.Algorithm inputs with
        | .inr e => ⟨some e, ctx, fs⟩
        | .inl lines =>
          let buffer := String.join (lines.map SumLine.render)
          match fs.write filepath buffer with
          | none => ⟨some (.plain ("open " ++ filepath ++ ": permission denied")), ctx, fs⟩
          | some fs1 =>
            let stored := ctx.Artifacts.map (storeChecksum c fs cfg.Algorithm cfg.IDs)
            ⟨none,
              { ctx with Artifacts := stored ++ [⟨filename, filepath, .Checksum, none, none⟩] },
              fs1⟩

/-! ## The fixtures of `checksums_test.go` -/

/-- The template of `TestPipe` and `TestRefreshModifying`. -/
def fixtureTemplate : String :=
  "\x7b\x7b .ProjectName \x7d\x7d_\x7b\x7b .Env.FOO \x7d\x7d_checksums.txt"

/-- A renderer for the templates the tests use: the template of `TestPipe` is
filled from the project name and the environment, any other text stands for
itself. -/
def fixtureRender (ctx : Context) (template : String) : String ⊕ GoError :=
  if template = fixtureTemplate then
    match ctx.Env.lookup "FOO" with
    | some foo => .inl (ctx.Config.ProjectName ++ "_" ++ foo ++ "_checksums.txt")
    | none => .inr (.plain "map has no entry for key \"FOO\"")
  else .inl template

/-- The SHA-256 digest of `some string`, as `TestPipe` spells it out. -/
def fixtureSha256 : String :=
  "61d034473102d7dac305902770471fd50f4c5b26f6831a56dd90b5184b3c30fc"

/-- The hash functions on the one content the tests hash. -/
def fixtureSum (algorithm content : String) : String :=
  if algorithm = "sha256" ∧ content = "some string" then fixtureSha256 else ""

/-- The collaborators of the tests; no test below configures an extra file. -/
def fixtureCollaborators : Collaborators := ⟨fixtureRender, fun _ _ => [], fixtureSum⟩

/-- The directory `t.TempDir()` of `TestPipe`. -/
def fixtureFolder : String := "/tmp/TestPipe"

/-- The files of `TestPipe`: `binary` holding `some string`. -/
def fixtureFiles : FileSystem := ⟨[("/tmp/TestPipe/binary", "some string")], []⟩

/-- The context `TestPipe` builds (checksums_test.go:54-90): three artifacts of
one file, added as binary (id-1), archive (id-2), package (id-3). -/
def testPipeContext (ids : List String) : Context :=
  let ctx := context.New ⟨fixtureFolder, "binary", ⟨fixtureTemplate, "sha256", ids, [], false⟩⟩
  let ctx := { ctx with CurrentTag := "1.2.3" }
  let ctx := { ctx with Env := [("FOO", "bar")] }
  let ctx := ctx.Add ⟨"binary", "/tmp/TestPipe/binary", .UploadableBinary, some "id-1", none⟩
  let ctx := ctx.Add ⟨"binary.tar.gz", "/tmp/TestPipe/binary", .UploadableArchive,
    some "id-2", none⟩
  let ctx := ctx.Add ⟨"binary.rpm", "/tmp/TestPipe/binary", .LinuxPackage, some "id-3", none⟩
  ctx

/-- The constant `sum` of `TestPipe`: the digest and two spaces. -/
def testPipeSum : String := fixtureSha256 ++ "  "

/-- The expectation `want` of the case `default` (checksums_test.go:31-37). -/
def testPipeWantDefault : String :=
  testPipeSum ++ "binary" ++ "\n" ++ testPipeSum ++ "binary.rpm" ++ "\n" ++
    testPipeSum ++ "binary.tar.gz" ++ "\n"

/-- The expectation `want` of the case `select ids` (checksums_test.go:38-47). -/
def testPipeWantSelect : String :=
  testPipeSum ++ "binary" ++ "\n" ++ testPipeSum ++ "binary.tar.gz" ++ "\n"

/-- The manifest of `TestPipe` with one line per artifact in the order of
registration. -/
def testPipeEnumerated : String :=
  testPipeSum ++ "binary" ++ "\n" ++ testPipeSum ++ "binary.tar.gz" ++ "\n" ++
    testPipeSum ++ "binary.rpm" ++ "\n"

/-- The assertions of one case of `TestPipe` (checksums_test.go:91-100) on an
implementation of `Run`: no error, the manifest is among the registered
artifacts, the file can be read, and `want` contains its content. -/
def TestPipe (run : Context → FileSystem → RunResult) (ids : List String)
    (want : String) : Prop :=
  (run (testPipeContext ids) fixtureFiles).err = none ∧
    "binary_bar_checksums.txt" ∈
      (run (testPipeContext ids) fixtureFiles).ctx.Artifacts.map Artifact.Name ∧
    ∃ bts, (run (testPipeContext ids) fixtureFiles).fs.read
        (filepathJoin fixtureFolder "binary_bar_checksums.txt") = some bts ∧
      ∃ before after, want.data = before ++ bts.data ++ after

/-- The context of `TestPipeWhenNoArtifacts` (checksums_test.go:227-229): the
zero configuration and an empty registry. -/
def noArtifactsContext : Context := ⟨Project.zero, [], "", []⟩

/-- The assertions of `TestPipeWhenNoArtifacts` (checksums_test.go:230-231) on
an implementation of `Run`: no error and a registry of length 0. -/
def TestPipeWhenNoArtifacts (run : Context → FileSystem → RunResult) : Prop :=
  (run noArtifactsContext ⟨[], []⟩).err = none ∧
    (run noArtifactsContext ⟨[], []⟩).ctx.Artifacts.length = 0

/-- A configured context whose registry holds one artifact, of a type the
pipe does not checksum. -/
def imageOnlyContext : Context :=
  (context.New ⟨"dist", "app", ⟨"checksums.txt", "sha256", [], [], false⟩⟩).Add
    ⟨"app:1.0", "app:1.0", .DockerImage, none, none⟩

/-- A toolchain in which `manifest rm` fails, the manifest not existing yet,
and every other command succeeds. -/
def removalFailsToolchain : Toolchain := fun _ inv =>
  if inv.args.take 2 = ["manifest", "rm"] then ⟨"", some (.tool "no such manifest")⟩
  else ⟨"", none⟩

/-! ## Theorems -/

theorem matchHere_append (ps qs : Regexp) (s : List Char) :
    Regexp.matchHere (ps ++ qs) s = (Regexp.matchHere ps s && Regexp.matchHere qs (s.drop ps.length)) := by
  induction ps generalizing s with
  | nil => simp [Regexp.matchHere]
  | cons p ps ih =>
    cases s with
    | nil => simp [Regexp.matchHere]
    | cons c cs => simp [Regexp.matchHere, ih, Bool.and_assoc]

theorem matchHere_literal (lits s : List Char) :
    Regexp.matchHere (lits.map (fun lit c => c == lit)) s = (s.take lits.length == lits) := by
  induction lits generalizing s with
  | nil => simp [Regexp.matchHere]
  | cons l ls ih =>
    cases s with
    | nil => simp [Regexp.matchHere]
    | cons c cs =>
      simp only [List.map_cons, Regexp.matchHere, ih, List.length_cons, List.take_succ_cons]
      by_cases h : c = l <;> simp [h]

theorem matchHere_replicate (n : Nat) (cls : Char → Bool) (s : List Char) :
    Regexp.matchHere (List.replicate n cls) s = (decide (n ≤ s.length) && (s.take n).all cls) := by
  induction n generalizing s with
  | zero => simp [Regexp.matchHere]
  | succ n ih =>
    cases s with
    | nil => simp [List.replicate_succ, Regexp.matchHere]
    | cons c cs =>
      simp only [List.replicate_succ, Regexp.matchHere, ih, List.length_cons, List.take_succ_cons,
        List.all_cons, Nat.add_le_add_iff_right]
      cases cls c <;> simp

theorem dockerDigestPattern_length : dockerDigestPattern.length = 71 := by
  simp [dockerDigestPattern]

/-- The compiled pattern matches at the start of a text exactly when the first
71 characters of the text are a digest token over `[a-z0-9]`. -/
theorem matchHere_dockerDigestPattern (s : List Char) :
    dockerDigestPattern.matchHere s = isDigestToken classLowerAlnum (s.take 71) := by
  unfold dockerDigestPattern isDigestToken
  rw [matchHere_append, matchHere_literal, matchHere_replicate]
  have h7 : "sha256:".data.length = 7 := rfl
  simp only [List.length_map, h7, List.take_take, List.length_drop, List.length_take]
  have hd : List.drop 7 (List.take 71 s) = List.take 64 (List.drop 7 s) := by
    rw [List.drop_take]
  rw [hd]
  have hm : min 7 71 = 7 := rfl
  rw [hm]
  rw [Bool.eq_iff_iff]
  simp only [Bool.and_eq_true, decide_eq_true_eq, beq_iff_eq]
  constructor
  · rintro ⟨h1, h2, h3⟩
    exact ⟨⟨h1, by omega⟩, h3⟩
  · rintro ⟨⟨h1, h2⟩, h3⟩
    exact ⟨h1, by omega, h3⟩

theorem find_spec (re : Regexp) (s : List Char) :
    (∃ n, re.matchHere (s.drop n) = true ∧ re.find s = (s.drop n).take re.length ∧
        ∀ m, m < n → re.matchHere (s.drop m) = false) ∨
      (re.find s = [] ∧ ∀ m, m < s.length → re.matchHere (s.drop m) = false) := by
  induction s with
  | nil => right; simp [Regexp.find]
  | cons c cs ih =>
    by_cases h : re.matchHere (c :: cs) = true
    · left
      exact ⟨0, by simpa using h, by simp [Regexp.find, h], by simp⟩
    · have hf : re.find (c :: cs) = re.find cs := by simp [Regexp.find, h]
      rcases ih with ⟨n, h1, h2, h3⟩ | ⟨h2, h3⟩
      · left
        refine ⟨n + 1, by simpa using h1, by simpa [hf] using h2, ?_⟩
        intro m hm
        cases m with
        | zero => simpa using h
        | succ k => simpa using h3 k (by omega)
      · right
        refine ⟨by rw [hf, h2], ?_⟩
        intro m hm
        cases m with
        | zero => simpa using h
        | succ k => simpa using h3 k (by simpa using hm)

theorem isDigestToken_length (cls : Char → Bool) (t : List Char)
    (h : isDigestToken cls t = true) : t.length = 71 := by
  simp only [isDigestToken, Bool.and_eq_true, beq_iff_eq] at h
  obtain ⟨⟨h1, h2⟩, _⟩ := h
  have h3 : (List.take 7 t).length = 7 := by rw [h1]; rfl
  simp only [List.length_take, List.length_drop] at h2 h3
  omega

theorem drop_take_of_occurrence (pre tok post : List Char) :
    ((pre ++ tok ++ post).drop pre.length).take tok.length = tok := by
  simp [List.append_assoc]

/-- A non-empty result of the scan is the leftmost token of the text. -/
theorem find_leftmost (s d : List Char) (hd : d ≠ [])
    (h : dockerDigestPattern.find s = d) : LeftmostToken classLowerAlnum s d := by
  rcases find_spec dockerDigestPattern s with ⟨n, h1, h2, h3⟩ | ⟨h2, _⟩
  · rw [h, dockerDigestPattern_length] at h2
    rw [matchHere_dockerDigestPattern, ← h2] at h1
    refine ⟨s.take n, (s.drop n).drop 71, ?_, h1, ?_⟩
    · rw [h2, List.append_assoc, List.take_append_drop, List.take_append_drop]
    · intro pre2 tok post2 hs htok
      have hlen := isDigestToken_length _ _ htok
      have hm : dockerDigestPattern.matchHere (s.drop pre2.length) = true := by
        rw [matchHere_dockerDigestPattern, hs, ← hlen, drop_take_of_occurrence]
        exact htok
      have hle : n ≤ pre2.length := by
        by_contra hlt
        have := h3 pre2.length (by omega)
        rw [this] at hm
        exact Bool.false_ne_true hm
      have : (s.take n).length ≤ n := by simp
      omega
  · exact absurd (h ▸ h2) hd

/-- The scan returns the leftmost token of the text whenever there is one. -/
theorem leftmost_find (s d : List Char) (h : LeftmostToken classLowerAlnum s d) :
    dockerDigestPattern.find s = d := by
  obtain ⟨pre, post, hs, htok, hmin⟩ := h
  have hlen := isDigestToken_length _ _ htok
  have hm : dockerDigestPattern.matchHere (s.drop pre.length) = true := by
    rw [matchHere_dockerDigestPattern, hs, ← hlen, drop_take_of_occurrence]
    exact htok
  have hsl : s.length = pre.length + 71 + post.length := by
    rw [hs]; simp only [List.length_append, hlen]
  rcases find_spec dockerDigestPattern s with ⟨n, h1, h2, h3⟩ | ⟨_, h3⟩
  · have hle : n ≤ pre.length := by
      by_contra hlt
      have := h3 pre.length (by omega)
      rw [this] at hm
      exact Bool.false_ne_true hm
    rw [matchHere_dockerDigestPattern] at h1
    have hn := isDigestToken_length _ _ h1
    simp only [List.length_take, List.length_drop] at hn
    have hge : pre.length ≤ n := by
      have := hmin (s.take n) ((s.drop n).take 71) ((s.drop n).drop 71)
        (by rw [List.append_assoc, List.take_append_drop, List.take_append_drop]) h1
      simp only [List.length_take] at this
      omega
    have hnp : n = pre.length := by omega
    rw [h2, dockerDigestPattern_length, hnp, hs, ← hlen, drop_take_of_occurrence]
  · have := h3 pre.length (by omega)
    rw [this] at hm
    exact absurd hm Bool.false_ne_true

theorem find_eq_nil_iff (s : List Char) :
    dockerDigestPattern.find s = [] ↔ ¬ HasToken classLowerAlnum s := by
  constructor
  · rintro h ⟨pre, tok, post, hs, htok⟩
    have hlen := isDigestToken_length _ _ htok
    have hm : dockerDigestPattern.matchHere (s.drop pre.length) = true := by
      rw [matchHere_dockerDigestPattern, hs, ← hlen, drop_take_of_occurrence]
      exact htok
    have hsl : s.length = pre.length + 71 + post.length := by
      rw [hs]; simp only [List.length_append, hlen]
    rcases find_spec dockerDigestPattern s with ⟨n, h1, h2, _⟩ | ⟨_, h3⟩
    · rw [matchHere_dockerDigestPattern] at h1
      have hn := isDigestToken_length _ _ h1
      rw [h, dockerDigestPattern_length] at h2
      rw [← h2] at hn
      simp at hn
    · have := h3 pre.length (by omega)
      rw [this] at hm
      exact absurd hm Bool.false_ne_true
  · intro h
    by_contra hne
    obtain ⟨pre, post, hs, htok, _⟩ := find_leftmost s _ hne rfl
    exact h ⟨pre, _, post, hs, htok⟩

theorem Errorf_push (image : String) (e : GoError) :
    fmt.Errorf "failed to push %s: %w" [.str image, .err e] =
      .wrapped ("failed to push " ++ image ++ ": " ++ e.Error) e := by
  have h1 : fmt.wrapOperand "failed to push %s: %w".data [.str image, .err e] = some e := rfl
  have h2 : fmt.expand "failed to push %s: %w".data [.str image, .err e] =
      ("failed to push " ++ image ++ ": " ++ e.Error).data := by
    simp only [String.data_append]
    simp [fmt.expand, FmtArg.text]
  simp only [fmt.Errorf, h1, h2]

theorem Errorf_build (image : String) (e : GoError) :
    fmt.Errorf "failed to build %s: %w" [.str image, .err e] =
      .wrapped ("failed to build " ++ image ++ ": " ++ e.Error) e := by
  have h1 : fmt.wrapOperand "failed to build %s: %w".data [.str image, .err e] = some e := rfl
  have h2 : fmt.expand "failed to build %s: %w".data [.str image, .err e] =
      ("failed to build " ++ image ++ ": " ++ e.Error).data := by
    simp only [String.data_append]
    simp [fmt.expand, FmtArg.text]
  simp only [fmt.Errorf, h1, h2]

theorem Errorf_create (manifest : String) (e : GoError) :
    fmt.Errorf "failed to create %s: %w" [.str manifest, .err e] =
      .wrapped ("failed to create " ++ manifest ++ ": " ++ e.Error) e := by
  have h1 : fmt.wrapOperand "failed to create %s: %w".data [.str manifest, .err e] = some e := rfl
  have h2 : fmt.expand "failed to create %s: %w".data [.str manifest, .err e] =
      ("failed to create " ++ manifest ++ ": " ++ e.Error).data := by
    simp only [String.data_append]
    simp [fmt.expand, FmtArg.text]
  simp only [fmt.Errorf, h1, h2]

theorem Errorf_digest (out : String) :
    fmt.Errorf "failed to find docker digest in docker push output: %v" [.str out] =
      .plain ("failed to find docker digest in docker push output: " ++ out) := by
  have h1 : fmt.wrapOperand "failed to find docker digest in docker push output: %v".data
      [.str out] = none := rfl
  have h2 : fmt.expand "failed to find docker digest in docker push output: %v".data
      [.str out] = ("failed to find docker digest in docker push output: " ++ out).data := by
    simp only [String.data_append]
    simp [fmt.expand, FmtArg.text]
  simp only [fmt.Errorf, h1, h2]

theorem Push_of_failure (i : dockerImager) (sys : Toolchain) (log : List Invocation)
    (image : String) (flags : List String) (e : GoError)
    (h : (sys log (pushInvocation image)).err = some e) :
    i.Push sys log image flags =
      (("", some (.wrapped ("failed to push " ++ image ++ ": " ++ e.Error) e)),
        log ++ [pushInvocation image]) := by
  simp only [pushInvocation] at h
  simp only [dockerImager.Push, runCommandWithOutput, h, Errorf_push, pushInvocation]

theorem Push_of_success (i : dockerImager) (sys : Toolchain) (log : List Invocation)
    (image : String) (flags : List String)
    (h : (sys log (pushInvocation image)).err = none) :
    i.Push sys log image flags =
      (if dockerDigestPattern.find (sys log (pushInvocation image)).output.data = [] then
        ("", some (.plain ("failed to find docker digest in docker push output: " ++
          (sys log (pushInvocation image)).output)))
      else (⟨dockerDigestPattern.find (sys log (pushInvocation image)).output.data⟩, none),
        log ++ [pushInvocation image]) := by
  simp only [pushInvocation] at h
  simp only [dockerImager.Push, runCommandWithOutput, h, Errorf_digest, pushInvocation,
    Regexp.FindString]
  have hiff : ((⟨dockerDigestPattern.find
      (sys log ⟨".", "docker", ["push", image]⟩).output.data⟩ : String) = "") ↔
      dockerDigestPattern.find (sys log ⟨".", "docker", ["push", image]⟩).output.data = [] := by
    rw [String.ext_iff]
  by_cases hc : dockerDigestPattern.find
      (sys log ⟨".", "docker", ["push", image]⟩).output.data = []
  · rw [if_pos (hiff.mpr hc), if_pos hc]
  · rw [if_neg (fun h2 => hc (hiff.mp h2)), if_neg hc]

/-- C1 (amended): whenever `dockerImager.Push` returns a digest without error,
the digest is the leftmost substring of the output made of `sha256:` and 64
characters of `[a-z0-9]`; and when the push process succeeds and the output
holds such a token, `Push` returns the leftmost one without error. -/
theorem Push_returns_leftmost_token (i : dockerImager) (sys : Toolchain)
    (log : List Invocation) (image : String) (flags : List String) :
    (∀ d : String, (i.Push sys log image flags).1 = (d, none) →
      LeftmostToken classLowerAlnum (sys log (pushInvocation image)).output.data d.data) ∧
    ((sys log (pushInvocation image)).err = none →
      ∀ d : String, LeftmostToken classLowerAlnum (sys log (pushInvocation image)).output.data
        d.data → (i.Push sys log image flags).1 = (d, none)) := by
  constructor
  · intro d hd
    cases herr : (sys log (pushInvocation image)).err with
    | some e =>
      rw [Push_of_failure i sys log image flags e herr] at hd
      simp at hd
    | none =>
      rw [Push_of_success i sys log image flags herr] at hd
      by_cases hc : dockerDigestPattern.find (sys log (pushInvocation image)).output.data = []
      · rw [if_pos hc] at hd
        simp at hd
      · rw [if_neg hc] at hd
        have hd2 : dockerDigestPattern.find (sys log (pushInvocation image)).output.data
            = d.data := by
          have := congrArg (fun p => p.1.data) hd
          simpa using this
        exact find_leftmost _ _ (hd2 ▸ hc) hd2
  · intro herr d hd
    have hf := leftmost_find _ _ hd
    have hne : dockerDigestPattern.find (sys log (pushInvocation image)).output.data ≠ [] := by
      rw [hf]
      obtain ⟨_, _, _, htok, _⟩ := hd
      have := isDigestToken_length _ _ htok
      intro h0
      rw [h0] at this
      simp at this
    rw [Push_of_success i sys log image flags herr, if_neg hne, hf]

/-- C1 (as stated) fails: the output holds `sha256:` with 64 letters `z` ahead
of a `Digest:` line with a hexadecimal digest; `Push` returns the first token
without error, although it is no hexadecimal digest and is not the token of the
`Digest:` line. -/
theorem Push_returns_non_hex_token :
    (dockerImager.Push ⟨false⟩ (replyWith mixedOutput none) [] "example/app:1.0" []).1
        = (zToken, none) ∧
      isDigestToken classLowerHex zToken.data = false ∧
      mixedOutput = "ref " ++ zToken ++ "\nDigest: " ++ aToken ++ "\n" ∧
      isDigestToken classLowerHex aToken.data = true ∧
      zToken ≠ aToken := by
  decide

/-- Witness for C1: on the mixed output the push succeeds and `Push` returns
the leftmost `[a-z0-9]` token. -/
theorem Push_returns_leftmost_token_witness :
    LeftmostToken classLowerAlnum mixedOutput.data zToken.data ∧
      (dockerImager.Push ⟨false⟩ (replyWith mixedOutput none) [] "example/app:1.0" []).1
        = (zToken, none) :=
  ⟨(Push_returns_leftmost_token ⟨false⟩ (replyWith mixedOutput none) [] "example/app:1.0"
      []).1 zToken (by decide), by decide⟩

theorem foldl_tags (images : List String) (base : List String) :
    images.foldl (fun base image => base ++ ["-t", image]) base = base ++ tagPairs images := by
  induction images generalizing base with
  | nil => simp [tagPairs]
  | cons image rest ih =>
    rw [List.foldl_cons, ih]
    simp [tagPairs, List.append_assoc]

theorem buildCommand_eq (i : dockerImager) (images flags : List String) :
    i.buildCommand images flags =
      (if i.buildx then ["buildx", "--builder", "default", "build", ".", "--load"]
        else ["build", "."]) ++ tagPairs images ++ flags := by
  simp only [dockerImager.buildCommand, foldl_tags]

theorem Build_log (i : dockerImager) (sys : Toolchain) (log : List Invocation)
    (root : String) (images flags : List String) :
    (i.Build sys log root images flags).2 =
      log ++ [⟨root, "docker", i.buildCommand images flags⟩] := by
  simp only [dockerImager.Build, runCommand, runCommandWithOutput]
  cases (sys log ⟨root, "docker", i.buildCommand images flags⟩).err with
  | none => rfl
  | some e =>
    cases images with
    | nil => rfl
    | cons primary rest => simp

theorem Build_result (i : dockerImager) (sys : Toolchain) (log : List Invocation)
    (root : String) (images flags : List String) :
    (i.Build sys log root images flags).1 =
      match (sys log ⟨root, "docker", i.buildCommand images flags⟩).err with
      | none => some none
      | some e =>
        match images with
        | [] => none
        | primary :: _ =>
          some (some (.wrapped ("failed to build " ++ primary ++ ": " ++ e.Error) e)) := by
  simp only [dockerImager.Build, runCommand, runCommandWithOutput]
  cases (sys log ⟨root, "docker", i.buildCommand images flags⟩).err with
  | none => rfl
  | some e =>
    cases images with
    | nil => rfl
    | cons primary rest => simp [Errorf_build]

theorem Create_eq (m : dockerManifester) (sys : Toolchain) (log : List Invocation)
    (manifest : String) (images flags : List String) :
    m.Create sys log manifest images flags =
      ((match (sys (log ++ [removeInvocation manifest])
          (createInvocation manifest images flags)).err with
        | none => none
        | some e => some (.wrapped ("failed to create " ++ manifest ++ ": " ++ e.Error) e)),
        log ++ [removeInvocation manifest, createInvocation manifest images flags]) := by
  simp only [dockerManifester.Create, runCommand, runCommandWithOutput, removeInvocation,
    createInvocation]
  cases (sys (log ++ [⟨".", "docker", ["manifest", "rm", manifest]⟩])
      ⟨".", "docker", ["manifest", "create", manifest] ++ images ++ flags⟩).err with
  | none => simp
  | some e => simp [Errorf_create]

/-- C2 (the code at the failing input): pushing `example/app:1.0` with the
extra flag `--quiet` issues exactly `docker push example/app:1.0`; the flag is
in no argument vector handed to the push command. -/
theorem Push_drops_extra_flags (i : dockerImager) (sys : Toolchain) :
    (i.Push sys [] "example/app:1.0" ["--quiet"]).2
        = [⟨".", "docker", ["push", "example/app:1.0"]⟩] ∧
      ∀ inv ∈ (i.Push sys [] "example/app:1.0" ["--quiet"]).2, "--quiet" ∉ inv.args := by
  have hlog : (i.Push sys [] "example/app:1.0" ["--quiet"]).2
      = [⟨".", "docker", ["push", "example/app:1.0"]⟩] := by
    cases herr : (sys [] (pushInvocation "example/app:1.0")).err with
    | some e => rw [Push_of_failure i sys [] _ _ e herr]; rfl
    | none => rw [Push_of_success i sys [] _ _ herr]; rfl
  refine ⟨hlog, ?_⟩
  intro inv hinv
  rw [hlog] at hinv
  simp only [List.mem_singleton] at hinv
  rw [hinv]
  decide

/-- C3: `dockerImager.Push` returns an error exactly when the push process
fails or succeeds with an output holding no match of the digest pattern; it
never returns an empty digest with a nil error; a process failure is returned
wrapped with the image name whatever the output holds; a success without match
returns an error whose message ends in the full captured output. -/
theorem Push_error_cases (i : dockerImager) (sys : Toolchain) (log : List Invocation)
    (image : String) (flags : List String) :
    ((i.Push sys log image flags).1.2 ≠ none ↔
      ((sys log (pushInvocation image)).err ≠ none ∨
        ((sys log (pushInvocation image)).err = none ∧
          ¬ HasToken classLowerAlnum (sys log (pushInvocation image)).output.data))) ∧
    ¬ ((i.Push sys log image flags).1.1 = "" ∧ (i.Push sys log image flags).1.2 = none) ∧
    (∀ e, (sys log (pushInvocation image)).err = some e →
      (i.Push sys log image flags).1 =
        ("", some (.wrapped ("failed to push " ++ image ++ ": " ++ e.Error) e))) ∧
    ((sys log (pushInvocation image)).err = none →
      ¬ HasToken classLowerAlnum (sys log (pushInvocation image)).output.data →
      (i.Push sys log image flags).1 =
          ("", some (.plain ("failed to find docker digest in docker push output: " ++
            (sys log (pushInvocation image)).output))) ∧
        ∃ err before, (i.Push sys log image flags).1.2 = some err ∧
          err.Error.data = before ++ (sys log (pushInvocation image)).output.data) := by
  cases herr : (sys log (pushInvocation image)).err with
  | some e =>
    rw [Push_of_failure i sys log image flags e herr]
    simp
  | none =>
    rw [Push_of_success i sys log image flags herr]
    by_cases hc : dockerDigestPattern.find (sys log (pushInvocation image)).output.data = []
    · have hno := (find_eq_nil_iff _).mp hc
      rw [if_pos hc]
      refine ⟨by simp [hno], by simp, by simp, fun _ _ => ⟨rfl, _,
        "failed to find docker digest in docker push output: ".data, rfl, ?_⟩⟩
      simp only [GoError.Error, String.data_append]
    · have hyes : HasToken classLowerAlnum (sys log (pushInvocation image)).output.data := by
        by_contra hno
        exact hc ((find_eq_nil_iff _).mpr hno)
      rw [if_neg hc]
      refine ⟨by simp [hyes], ?_, by simp, fun _ hno => absurd hyes hno⟩
      rintro ⟨h1, _⟩
      apply hc
      have := congrArg String.data h1
      simpa using this

/-- C4: the argument vector `Build` hands to the external tool is, for the
plain strategy, `build .` followed by one `-t <image>` pair per image in order
and then the extra flags; for the buildx strategy,
`buildx --builder default build . --load` followed by the same pairs and flags.
It is the only command issued, and it runs in the build context directory. -/
theorem Build_argument_vector (sys : Toolchain) (log : List Invocation)
    (root : String) (images flags : List String) :
    (dockerImager.Build ⟨false⟩ sys log root images flags).2 =
        log ++ [⟨root, "docker", ["build", "."] ++ tagPairs images ++ flags⟩] ∧
      (dockerImager.Build ⟨true⟩ sys log root images flags).2 =
        log ++ [⟨root, "docker",
          ["buildx", "--builder", "default", "build", ".", "--load"] ++ tagPairs images
            ++ flags⟩] := by
  constructor
  · rw [Build_log, buildCommand_eq]; rfl
  · rw [Build_log, buildCommand_eq]; rfl

/-- C5: for a non-empty image list, `Build` returns nil exactly when the build
process succeeds, and when the process fails with `e` it returns the error
`failed to build <images[0]>: <e>` wrapping `e`. -/
theorem Build_error_names_primary_image (i : dockerImager) (sys : Toolchain)
    (log : List Invocation) (root : String) (images flags : List String)
    (h : images ≠ []) :
    ((i.Build sys log root images flags).1 = some none ↔
      (sys log ⟨root, "docker", i.buildCommand images flags⟩).err = none) ∧
    ∀ e, (sys log ⟨root, "docker", i.buildCommand images flags⟩).err = some e →
      (i.Build sys log root images flags).1 =
        some (some (.wrapped ("failed to build " ++ images.head h ++ ": " ++ e.Error) e)) := by
  rw [Build_result]
  cases images with
  | nil => exact absurd rfl h
  | cons primary rest =>
    cases (sys log ⟨root, "docker", i.buildCommand (primary :: rest) flags⟩).err with
    | none => simp
    | some e => simp

/-- Witness for C5: two images, a failing toolchain, the buildx strategy. -/
theorem Build_error_names_primary_image_witness :
    (dockerImager.Build ⟨true⟩ failingToolchain [] "dist" ["app:1.0", "app:latest"] []).1 =
      some (some (.wrapped "failed to build app:1.0: exit status 1" (.tool "exit status 1"))) :=
  (Build_error_names_primary_image ⟨true⟩ failingToolchain [] "dist" ["app:1.0", "app:latest"]
    [] (by decide)).2 (.tool "exit status 1") rfl

/-- C6: whatever the removal command returns, `Create` runs the creation
command, and its result is that of the creation command alone: nil exactly when
`manifest create` succeeds, and `failed to create <name>: <e>` wrapping `e`
when it fails with `e`. -/
theorem Create_result_is_creation_result (m : dockerManifester) (sys : Toolchain)
    (log : List Invocation) (manifest : String) (images flags : List String) :
    createInvocation manifest images flags ∈ (m.Create sys log manifest images flags).2 ∧
    ((m.Create sys log manifest images flags).1 = none ↔
      (sys (log ++ [removeInvocation manifest])
        (createInvocation manifest images flags)).err = none) ∧
    (∀ e, (sys (log ++ [removeInvocation manifest])
        (createInvocation manifest images flags)).err = some e →
      (m.Create sys log manifest images flags).1 =
        some (.wrapped ("failed to create " ++ manifest ++ ": " ++ e.Error) e)) := by
  rw [Create_eq]
  refine ⟨by simp, ?_, ?_⟩
  · cases (sys (log ++ [removeInvocation manifest])
      (createInvocation manifest images flags)).err <;> simp
  · intro e he
    rw [he]

/-- C7: `Create` issues exactly two commands, first `manifest rm <name>`, then
`manifest create <name>` followed by the images and then the flags. -/
theorem Create_issues_remove_then_create (m : dockerManifester) (sys : Toolchain)
    (log : List Invocation) (manifest : String) (images flags : List String) :
    (m.Create sys log manifest images flags).2 =
      log ++ [⟨".", "docker", ["manifest", "rm", manifest]⟩,
        ⟨".", "docker", ["manifest", "create", manifest] ++ images ++ flags⟩] := by
  rw [Create_eq]
  rfl

/-- C10: `Build` returns normally whenever the image list is non-empty or the
build process succeeds; for the empty image list with a failing process the
lookup of `images[0]` fails and `Build` yields no error value, although the
command was issued. -/
theorem Build_total_unless_empty_and_failing (i : dockerImager) (sys : Toolchain)
    (log : List Invocation) (root : String) (images flags : List String) :
    ((images ≠ [] ∨ (sys log ⟨root, "docker", i.buildCommand images flags⟩).err = none) →
      ∃ r, (i.Build sys log root images flags).1 = some r) ∧
    (images = [] → (sys log ⟨root, "docker", i.buildCommand images flags⟩).err ≠ none →
      (i.Build sys log root images flags).1 = none ∧
        (i.Build sys log root images flags).2 =
          log ++ [⟨root, "docker", i.buildCommand images flags⟩]) := by
  rw [Build_result, Build_log]
  cases images with
  | nil =>
    cases (sys log ⟨root, "docker", i.buildCommand [] flags⟩).err with
    | none => simp
    | some e => simp
  | cons primary rest =>
    cases (sys log ⟨root, "docker", i.buildCommand (primary :: rest) flags⟩).err with
    | none => simp
    | some e => simp

/-- Witness for C10: no image and a failing toolchain: `Build` yields no value. -/
theorem Build_total_unless_empty_and_failing_witness :
    (dockerImager.Build ⟨false⟩ failingToolchain [] "dist" [] ["--pull"]).1 = none :=
  ((Build_total_unless_empty_and_failing ⟨false⟩ failingToolchain [] "dist" []
    ["--pull"]).2 rfl (by decide)).1

theorem read_write (fs fs1 : FileSystem) (path content : String)
    (h : fs.write path content = some fs1) : fs1.read path = some content := by
  unfold FileSystem.write at h
  split at h
  · cases h
  · cases h
    simp [FileSystem.read, List.lookup]

theorem write_of_not_denied (fs : FileSystem) (path content : String)
    (h : path ∉ fs.denied) : ∃ fs1, fs.write path content = some fs1 := by
  unfold FileSystem.write
  rw [if_neg h]
  exact ⟨_, rfl⟩

theorem sumLines_spec (c : Collaborators) (fs : FileSystem) (algorithm : String)
    (inputs : List (String × String)) (lines : List SumLine)
    (h : sumLines c fs algorithm inputs = .inl lines) :
    List.Forall₂ (fun input l => l.name = input.1 ∧
      ∃ content, fs.read input.2 = some content ∧ l.digest = c.Sum algorithm content)
      inputs lines := by
  induction inputs generalizing lines with
  | nil =>
    simp only [sumLines, Sum.inl.injEq] at h
    subst h
    exact List.Forall₂.nil
  | cons input rest ih =>
    obtain ⟨name, path⟩ := input
    simp only [sumLines] at h
    cases hread : fs.read path with
    | none => simp [hread] at h
    | some content =>
      simp only [hread] at h
      unfold Digest at h
      by_cases halg : algorithm ∈ supportedAlgorithms
      · simp only [halg, if_true] at h
        cases hrest : sumLines c fs algorithm rest with
        | inr e => simp [hrest] at h
        | inl more =>
          simp only [hrest, Sum.inl.injEq] at h
          subst h
          exact List.Forall₂.cons ⟨rfl, content, hread, rfl⟩ (ih more hrest)
      · simp [halg] at h

theorem sumLines_total (c : Collaborators) (fs : FileSystem) (algorithm : String)
    (inputs : List (String × String)) (halg : algorithm ∈ supportedAlgorithms)
    (hread : ∀ input ∈ inputs, ∃ content, fs.read input.2 = some content) :
    ∃ lines, sumLines c fs algorithm inputs = .inl lines := by
  induction inputs with
  | nil => exact ⟨[], rfl⟩
  | cons input rest ih =>
    obtain ⟨name, path⟩ := input
    obtain ⟨content, hcontent⟩ := hread (name, path) (List.mem_cons_self _ _)
    obtain ⟨more, hmore⟩ := ih (fun input hin => hread input (List.mem_cons_of_mem _ hin))
    refine ⟨⟨c.Sum algorithm content, name⟩ :: more, ?_⟩
    simp only [sumLines] at hcontent ⊢
    simp only [hcontent, Digest, halg, if_true, hmore]

theorem forall₂_map_left {α β γ : Type} (f : α → β) (r : β → γ → Prop) :
    ∀ (l : List α) (m : List γ), List.Forall₂ r (l.map f) m →
      List.Forall₂ (fun a b => r (f a) b) l m
  | [], _, h => by
    cases h
    exact List.Forall₂.nil
  | a :: l, _, h => by
    cases h with
    | cons h1 h2 => exact List.Forall₂.cons h1 (forall₂_map_left f r l _ h2)

theorem eq_of_contained_of_length {α : Type} (a b before after : List α)
    (h : b = before ++ a ++ after) (hlen : a.length = b.length) : a = b := by
  have h2 := congrArg List.length h
  simp only [List.length_append] at h2
  have hb : before = [] := List.length_eq_zero.mp (by omega)
  have ha : after = [] := List.length_eq_zero.mp (by omega)
  subst hb ha
  simp [h]

theorem map_storeChecksum_of_none_eligible (c : Collaborators) (fs : FileSystem)
    (algorithm : String) (ids : List String) (artifacts : List Artifact)
    (h : artifacts.filter (eligible ids) = []) :
    artifacts.map (storeChecksum c fs algorithm ids) = artifacts := by
  have hall : ∀ a ∈ artifacts, storeChecksum c fs algorithm ids a = a := by
    intro a ha
    have hne : ¬ eligible ids a = true := by
      intro he
      have : a ∈ artifacts.filter (eligible ids) := List.mem_filter.mpr ⟨ha, he⟩
      rw [h] at this
      exact List.not_mem_nil _ this
    simp [storeChecksum, hne]
  calc artifacts.map (storeChecksum c fs algorithm ids)
      = artifacts.map id := List.map_congr_left hall
    _ = artifacts := List.map_id _

/-- The result of a run whose every step succeeds. -/
theorem Run_of_success (c : Collaborators) (ctx : Context) (fs fs1 : FileSystem)
    (filename : String) (lines : List SumLine)
    (hon : ctx.Config.Checksum.Disable = false)
    (hrender : c.Render ctx ctx.Config.Checksum.NameTemplate = .inl filename)
    (hextra : ctx.Config.Checksum.ExtraFiles = [])
    (hl : sumLines c fs ctx.Config.Checksum.Algorithm
      ((ctx.Artifacts.filter (eligible ctx.Config.Checksum.IDs)).map
        (fun a => (a.Name, a.Path))) = .inl lines)
    (hw : fs.write (filepathJoin ctx.Config.Dist filename)
      (String.join (lines.map SumLine.render)) = some fs1) :
    Run c ctx fs = ⟨none,
      { ctx with Artifacts :=
          ctx.Artifacts.map (storeChecksum c fs ctx.Config.Checksum.Algorithm
            ctx.Config.Checksum.IDs) ++
            [⟨filename, filepathJoin ctx.Config.Dist filename, .Checksum, none, none⟩] },
      fs1⟩ := by
  unfold Run
  simp only [hon, Bool.false_eq_true, if_false, hextra, extraFiles, List.append_nil,
    hrender, hl, hw]

theorem eligible_of_no_allow_list (a : Artifact) :
    eligible [] a = decide (a.Kind = ArtifactType.UploadableBinary ∨
      a.Kind = ArtifactType.UploadableArchive ∨ a.Kind = ArtifactType.LinuxPackage) := by
  unfold eligible
  simp only [if_true]
  cases a.Kind <;> rfl

theorem eligible_of_allow_list (ids : List String) (hids : ids ≠ []) (a : Artifact) :
    eligible ids a =
      decide (a.Kind ≠ ArtifactType.Checksum ∧ ∃ id ∈ ids, a.ID = some id) := by
  unfold eligible
  rw [Bool.eq_iff_iff]
  simp only [hids, if_false, Bool.and_eq_true, bne_iff_ne, ne_eq, decide_eq_true_eq]
  cases a.ID with
  | none => simp
  | some id => simp

/-- C8: with no eligible artifact and no extra-file pattern, an enabled run
whose name template renders and whose destination can be written succeeds,
writes the manifest file with empty content and registers one new artifact of
type Checksum for it, so that the registry is not empty after the run. -/
theorem Run_without_inputs_registers_empty_manifest (c : Collaborators) (ctx : Context)
    (fs : FileSystem) (filename : String)
    (hon : ctx.Config.Checksum.Disable = false)
    (hrender : c.Render ctx ctx.Config.Checksum.NameTemplate = .inl filename)
    (hextra : ctx.Config.Checksum.ExtraFiles = [])
    (hnone : ctx.Artifacts.filter (eligible ctx.Config.Checksum.IDs) = [])
    (hwrite : filepathJoin ctx.Config.Dist filename ∉ fs.denied) :
    (Run c ctx fs).err = none ∧
    (Run c ctx fs).fs.read (filepathJoin ctx.Config.Dist filename) = some "" ∧
    (Run c ctx fs).ctx.Artifacts = ctx.Artifacts ++
      [⟨filename, filepathJoin ctx.Config.Dist filename, ArtifactType.Checksum, none, none⟩] ∧
    (Run c ctx fs).ctx.Artifacts ≠ [] := by
  have hl : sumLines c fs ctx.Config.Checksum.Algorithm
      ((ctx.Artifacts.filter (eligible ctx.Config.Checksum.IDs)).map
        (fun a => (a.Name, a.Path))) = .inl [] := by
    rw [hnone]
    rfl
  obtain ⟨fs1, hw⟩ := write_of_not_denied fs (filepathJoin ctx.Config.Dist filename)
    (String.join (([] : List SumLine).map SumLine.render)) hwrite
  rw [Run_of_success c ctx fs fs1 filename [] hon hrender hextra hl hw]
  refine ⟨rfl, ?_, ?_, ?_⟩
  · exact read_write fs fs1 _ _ hw
  · simp only [map_storeChecksum_of_none_eligible c fs _ _ _ hnone]
  · simp

/-- Witness for C8: a registry holding one docker image, no extra file, the
destination `dist/checksums.txt`. -/
theorem Run_without_inputs_registers_empty_manifest_witness :
    (Run fixtureCollaborators imageOnlyContext ⟨[], []⟩).err = none ∧
    (Run fixtureCollaborators imageOnlyContext ⟨[], []⟩).fs.read "dist/checksums.txt"
      = some "" ∧
    (Run fixtureCollaborators imageOnlyContext ⟨[], []⟩).ctx.Artifacts =
      [⟨"app:1.0", "app:1.0", ArtifactType.DockerImage, none, none⟩,
        ⟨"checksums.txt", "dist/checksums.txt", ArtifactType.Checksum, none, none⟩] ∧
    (Run fixtureCollaborators imageOnlyContext ⟨[], []⟩).ctx.Artifacts ≠ [] :=
  Run_without_inputs_registers_empty_manifest fixtureCollaborators imageOnlyContext ⟨[], []⟩
    "checksums.txt" rfl rfl rfl (by decide) (by decide)

/-- C9: with no extra files, an enabled run whose name template renders, whose
algorithm is supported, whose eligible artifacts can all be read and whose
destination can be written succeeds and writes a manifest that is exactly one
line `<digest>  <name>\n` per eligible artifact, in the order of the registry,
and nothing else.  Without an allow-list the eligible artifacts are the binary,
archive and linux-package ones; with a non-empty allow-list they are the
artifacts whose group id is in the list (an artifact of type Checksum never
being an input). -/
theorem Run_manifest_lines_in_enumeration_order (c : Collaborators) (ctx : Context)
    (fs : FileSystem) (filename : String)
    (hon : ctx.Config.Checksum.Disable = false)
    (hrender : c.Render ctx ctx.Config.Checksum.NameTemplate = .inl filename)
    (hextra : ctx.Config.Checksum.ExtraFiles = [])
    (halg : ctx.Config.Checksum.Algorithm ∈ supportedAlgorithms)
    (hread : ∀ a ∈ ctx.Artifacts.filter (eligible ctx.Config.Checksum.IDs),
      (fs.read a.Path).isSome = true)
    (hwrite : filepathJoin ctx.Config.Dist filename ∉ fs.denied) :
    (Run c ctx fs).err = none ∧
    ∃ entries : List SumLine,
      (Run c ctx fs).fs.read (filepathJoin ctx.Config.Dist filename) =
        some (String.join (entries.map (fun l => l.digest ++ "  " ++ l.name ++ "\n"))) ∧
      (ctx.Config.Checksum.IDs = [] →
        List.Forall₂ (fun a l => l.name = a.Name ∧ ∃ content,
            fs.read a.Path = some content ∧
              l.digest = c.Sum ctx.Config.Checksum.Algorithm content)
          (ctx.Artifacts.filter (fun a => decide (a.Kind = ArtifactType.UploadableBinary ∨
            a.Kind = ArtifactType.UploadableArchive ∨ a.Kind = ArtifactType.LinuxPackage)))
          entries) ∧
      (ctx.Config.Checksum.IDs ≠ [] →
        List.Forall₂ (fun a l => l.name = a.Name ∧ ∃ content,
            fs.read a.Path = some content ∧
              l.digest = c.Sum ctx.Config.Checksum.Algorithm content)
          (ctx.Artifacts.filter (fun a => decide (a.Kind ≠ ArtifactType.Checksum ∧
            ∃ id ∈ ctx.Config.Checksum.IDs, a.ID = some id)))
          entries) := by
  obtain ⟨lines, hl⟩ := sumLines_total c fs ctx.Config.Checksum.Algorithm
    ((ctx.Artifacts.filter (eligible ctx.Config.Checksum.IDs)).map
      (fun a => (a.Name, a.Path))) halg (by
        intro input hin
        obtain ⟨a, ha, rfl⟩ := List.mem_map.mp hin
        exact Option.isSome_iff_exists.mp (hread a ha))
  obtain ⟨fs1, hw⟩ := write_of_not_denied fs (filepathJoin ctx.Config.Dist filename)
    (String.join (lines.map SumLine.render)) hwrite
  have hentries := forall₂_map_left (fun a : Artifact => (a.Name, a.Path)) _ _ _
    (sumLines_spec c fs _ _ lines hl)
  rw [Run_of_success c ctx fs fs1 filename lines hon hrender hextra hl hw]
  refine ⟨rfl, lines, read_write fs fs1 _ _ hw, ?_, ?_⟩
  · intro hids
    rw [hids] at hentries
    have hf : eligible [] = fun a => decide (a.Kind = ArtifactType.UploadableBinary ∨
        a.Kind = ArtifactType.UploadableArchive ∨ a.Kind = ArtifactType.LinuxPackage) :=
      funext eligible_of_no_allow_list
    rw [hf] at hentries
    exact hentries
  · intro hids
    have hf : eligible ctx.Config.Checksum.IDs = fun a =>
        decide (a.Kind ≠ ArtifactType.Checksum ∧
          ∃ id ∈ ctx.Config.Checksum.IDs, a.ID = some id) :=
      funext (eligible_of_allow_list _ hids)
    rw [hf] at hentries
    exact hentries

/-- Witness for C9: the case `select ids` of `TestPipe`: binary (id-1), archive
(id-2) and package (id-3) with the allow-list id-1, id-2; the manifest holds
the lines of the binary and of the archive, and no line for the package. -/
theorem Run_manifest_lines_in_enumeration_order_witness :
    ((Run fixtureCollaborators (testPipeContext ["id-1", "id-2"]) fixtureFiles).err = none ∧
    ∃ entries : List SumLine,
      (Run fixtureCollaborators (testPipeContext ["id-1", "id-2"]) fixtureFiles).fs.read
          (filepathJoin fixtureFolder "binary_bar_checksums.txt") =
        some (String.join (entries.map (fun l => l.digest ++ "  " ++ l.name ++ "\n"))) ∧
      ((["id-1", "id-2"] : List String) = [] →
        List.Forall₂ (fun a l => l.name = a.Name ∧ ∃ content,
            fixtureFiles.read a.Path = some content ∧
              l.digest = fixtureSum "sha256" content)
          ((testPipeContext ["id-1", "id-2"]).Artifacts.filter
            (fun a => decide (a.Kind = ArtifactType.UploadableBinary ∨
              a.Kind = ArtifactType.UploadableArchive ∨ a.Kind = ArtifactType.LinuxPackage)))
          entries) ∧
      ((["id-1", "id-2"] : List String) ≠ [] →
        List.Forall₂ (fun a l => l.name = a.Name ∧ ∃ content,
            fixtureFiles.read a.Path = some content ∧
              l.digest = fixtureSum "sha256" content)
          ((testPipeContext ["id-1", "id-2"]).Artifacts.filter
            (fun a => decide (a.Kind ≠ ArtifactType.Checksum ∧
              ∃ id ∈ ["id-1", "id-2"], a.ID = some id)))
          entries)) ∧
    (Run fixtureCollaborators (testPipeContext ["id-1", "id-2"]) fixtureFiles).fs.read
      "/tmp/TestPipe/binary_bar_checksums.txt" =
        some (fixtureSha256 ++ "  binary\n" ++ fixtureSha256 ++ "  binary.tar.gz\n") :=
  ⟨Run_manifest_lines_in_enumeration_order fixtureCollaborators
    (testPipeContext ["id-1", "id-2"]) fixtureFiles "binary_bar_checksums.txt" rfl rfl rfl
    (by decide) (by decide) (by decide), by decide⟩

/-- The case `select ids` of `TestPipe` holds of the modelled run. -/
theorem Run_passes_TestPipe_select :
    TestPipe (Run fixtureCollaborators) ["id-1", "id-2"] testPipeWantSelect := by
  have h3 : (Run fixtureCollaborators (testPipeContext ["id-1", "id-2"]) fixtureFiles).fs.read
      (filepathJoin fixtureFolder "binary_bar_checksums.txt") = some testPipeWantSelect := by
    decide
  exact ⟨by decide, by decide, testPipeWantSelect, h3, [], [], by simp⟩

/-- The spec and `TestPipeWhenNoArtifacts` disagree (checksums_test.go:226-232):
the run modelled from §4.2 registers the empty manifest, the test requires a
registry of length 0. -/
theorem Run_fails_TestPipeWhenNoArtifacts :
    (Run fixtureCollaborators noArtifactsContext ⟨[], []⟩).ctx.Artifacts.length = 1 ∧
      ¬ TestPipeWhenNoArtifacts (Run fixtureCollaborators) := by
  have h : (Run fixtureCollaborators noArtifactsContext ⟨[], []⟩).ctx.Artifacts.length = 1 := by
    decide
  refine ⟨h, ?_⟩
  rintro ⟨_, h0⟩
  rw [h] at h0
  exact absurd h0 (by decide)

/-- The spec and the case `default` of `TestPipe` disagree (checksums_test.go:
31-37, 67-90, 100): the run modelled from §4.2 writes the lines in the order
of registration (binary, archive, package), the test requires a text contained
in binary, package, archive. -/
theorem Run_fails_TestPipe_default :
    (Run fixtureCollaborators (testPipeContext []) fixtureFiles).fs.read
        (filepathJoin fixtureFolder "binary_bar_checksums.txt") = some testPipeEnumerated ∧
      ¬ TestPipe (Run fixtureCollaborators) [] testPipeWantDefault := by
  have h : (Run fixtureCollaborators (testPipeContext []) fixtureFiles).fs.read
      (filepathJoin fixtureFolder "binary_bar_checksums.txt") = some testPipeEnumerated := by
    decide
  refine ⟨h, ?_⟩
  rintro ⟨_, _, bts, hbts, before, after, hcontained⟩
  rw [h] at hbts
  cases hbts
  have := eq_of_contained_of_length _ _ before after hcontained (by decide)
  revert this
  decide

/-- Witness for C6: the removal fails, the creation succeeds, `Create` returns
nil. -/
theorem Create_result_is_creation_result_witness :
    (dockerManifester.Create ⟨⟩ removalFailsToolchain [] "app:latest"
      ["app:amd64", "app:arm64"] ["--amend"]).1 = none ∧
    (removalFailsToolchain [] (removeInvocation "app:latest")).err
      = some (.tool "no such manifest") :=
  ⟨(Create_result_is_creation_result ⟨⟩ removalFailsToolchain [] "app:latest"
    ["app:amd64", "app:arm64"] ["--amend"]).2.1.mpr rfl, rfl⟩

end Goreleaser
